import Mathlib

/-!
# Verification of pg-replica-auditor

Shallow embedding of the pg-replica-auditor checksummer, which audits
logical consistency between a primary Postgres table and a downstream
replica. The repository contains two versions of the tool:

* `src/checksummer.py` — the legacy top-level script;
* `src/pgreplicaauditor/checksummer.py` — the packaged version (v0.0.5).

Rows (as returned by `SELECT *`) are modelled as lists of integer column
values whose first element is the `id` column; `dict(r1) != dict(r2)` on
same-schema rows coincides with structural list inequality, so row
comparison is list equality. Database fetches are modelled as pure
functions, matching the audit's read-only queries against a fixed
database state. `None` results (missing row, NULL aggregate) are
`Option`; Python exceptions are `Except` errors.
-/

namespace PgAudit

/-- A database row: the ordered list of column values returned by
`SELECT *`, the first being the `"id"` column. -/
abbrev Row := List Int

/-- `row[0]`: the first column (the id) of a row. -/
def rowId (r : Row) : Int := r.headI

/-- `check` from `src/pgreplicaauditor/checksummer.py` (packaged v0.0.5):
fetch one row by id from each side; `if r1 is None or r2 is None: return
None`; then `return False` if the dicts differ, else `True`. -/
def check (r1 r2 : Option Row) : Option Bool :=
  if r1 = none ∨ r2 = none then none
  else if r1 ≠ r2 then some false else some true

/-- `check` from the legacy `src/checksummer.py`: `if r1 is None and r2 is
None: return None`; then `return False` if `r1 != r2` (a present row never
equals Python `None`, so one-sided absence falls through to `False`),
else `True`. -/
def check_legacy (r1 r2 : Option Row) : Option Bool :=
  if r1 = none ∧ r2 = none then none
  else if r1 ≠ r2 then some false else some true

/-- Counter pair printed as `OK: {checked}, missing: {missing}` by both
the sampling phase and the recency check of the packaged version. -/
structure Tally where
  checked : Nat
  missing : Nat
deriving DecidableEq

/-- The sampling loop of `main` in `src/pgreplicaauditor/checksummer.py`
(lines 136–149): for each id in order, call `check`; `None` increments
`missing` and continues, `False` raises `Exception('Rows at id = {} are
different.')` naming that id, `True` increments `checked` and continues.
The error value carries the offending id. -/
def sampleLoop (primary replica : Int → Option Row) :
    List Int → Nat → Nat → Except Int Tally
  | [], checked, missing => .ok ⟨checked, missing⟩
  | id_ :: rest, checked, missing =>
    match check (primary id_) (replica id_) with
    | none => sampleLoop primary replica rest checked (missing + 1)
    | some false => .error id_
    | some true => sampleLoop primary replica rest (checked + 1) missing

/-- Failure modes of `last_1000` in `src/pgreplicaauditor/checksummer.py`:
the length-guard exception, the per-row mismatch exception carrying
`row1[0]`, and the Python `NameError`/`UnboundLocalError` that would occur
if the `except IndexError` branch ran before `row1` was ever bound. -/
inductive RecencyError where
  | countMismatch
  | rowMismatch (id_ : Int)
  | nameError
deriving DecidableEq

/-- The pairwise loop of `last_1000` (packaged version, lines 88–101):
`for idx, row2 in enumerate(r2)`, `try: row1 = r1[idx] except IndexError:
missing += 1`, then `checked += 1` and raise if `dict(row1) != dict(row2)`.
On `IndexError`, Python leaves `row1` bound to the previous iteration's
value (modelled by `prev`), or unbound on the first iteration. -/
def recencyLoop (r1 : List Row) :
    List Row → Nat → Nat → Nat → Option Row → Except RecencyError Tally
  | [], _, checked, missing, _ => .ok ⟨checked, missing⟩
  | row2 :: rest, idx, checked, missing, prev =>
    match r1[idx]? with
    | some row1 =>
      if row1 ≠ row2 then .error (.rowMismatch (rowId row1))
      else recencyLoop r1 rest (idx + 1) (checked + 1) missing (some row1)
    | none =>
      match prev with
      | some row1 =>
        if row1 ≠ row2 then .error (.rowMismatch (rowId row1))
        else recencyLoop r1 rest (idx + 1) (checked + 1) (missing + 1) (some row1)
      | none => .error .nameError

/-- `last_1000` from `src/pgreplicaauditor/checksummer.py`, taking the two
already-fetched row sets `r1` (primary) and `r2` (replica): `if len(r1) !=
len(r2): raise Exception('... do not have the same number of rows.')`,
otherwise run the pairwise loop with `checked = missing = 0`. -/
def last_1000 (r1 r2 : List Row) : Except RecencyError Tally :=
  if r1.length ≠ r2.length then .error .countMismatch
  else recencyLoop r1 r2 0 0 0 none

/-- Result of `lag`: Python returns `r1 - r2` when both `MAX(updated_at)`
aggregates are non-NULL, and raises `TypeError` from the subtraction when
either side fetched `None`. -/
inductive LagResult where
  | value (d : Int)
  | typeError
deriving DecidableEq

/-- `lag` from `src/pgreplicaauditor/checksummer.py` (lines 104–116):
`r1 = primary.fetchone()[0]; r2 = replica.fetchone()[0]; return r1 - r2`.
Timestamps are modelled as integers; a NULL aggregate is `none`. -/
def lag (t1 t2 : Option Int) : LagResult :=
  match t1, t2 with
  | some a, some b => .value (a - b)
  | _, _ => .typeError

/-- The fetch interface one connection offers the audit, as pure functions
of a fixed database state: point lookup by id, the
`ORDER BY "id" DESC LIMIT 1000` id list, bulk fetch by id list, and
`MAX(updated_at)`. -/
structure Database where
  fetchRow : Int → Option Row
  latestIds : List Int
  rowsByIds : List Int → List Row
  maxTimestamp : Option Int

/-- The exceptions that abort `main`: a sampling mismatch (with id), a
`last_1000` failure, or the `TypeError` raised by `lag` on a NULL
aggregate. -/
inductive AuditError where
  | sampleMismatch (id_ : Int)
  | recencyFailed (e : RecencyError)
  | lagTypeError
deriving DecidableEq

/-- What a completed run of `main` printed: the sampling tally, the
recency tally, and the lag value. -/
structure AuditResult where
  sample : Tally
  recency : Tally
  lagValue : Int
deriving DecidableEq

/-- `main` from `src/pgreplicaauditor/checksummer.py` (lines 119–163), as
a function of the two databases and the sampled id list: run the sampling
loop, then `last_1000` on the rows fetched for the replica's latest ids,
then `lag`; the first exception aborts the run. -/
def runAudit (primary replica : Database) (sampleIds : List Int) :
    Except AuditError AuditResult :=
  match sampleLoop primary.fetchRow replica.fetchRow sampleIds 0 0 with
  | .error id_ => .error (.sampleMismatch id_)
  | .ok s =>
    match last_1000 (primary.rowsByIds replica.latestIds)
        (replica.rowsByIds replica.latestIds) with
    | .error e => .error (.recencyFailed e)
    | .ok t =>
      match lag primary.maxTimestamp replica.maxTimestamp with
      | .typeError => .error .lagTypeError
      | .value d => .ok ⟨s, t, d⟩

/-- Primary-side test database for the witnesses: id 0 holds `[0, 10]`. -/
def dbA : Int → Option Row := fun i => if i = 0 then some [0, 10] else none

/-- Replica-side test database for the witnesses: id 0 holds `[0, 20]`. -/
def dbB : Int → Option Row := fun i => if i = 0 then some [0, 20] else none

/-- A database with no rows, for the C8 counterexample. -/
def emptyDb : Int → Option Row := fun _ => none

/-- A small concrete database for the C9 witness. -/
def auditDb : Database where
  fetchRow := dbA
  latestIds := [0]
  rowsByIds := fun l => l.filterMap dbA
  maxTimestamp := some 5

/-- `_func` from `src/pgreplicaauditor/checksummer.py`: `i ** 2.38`,
modelled with exact real arithmetic. -/
noncomputable def func (i : Nat) : ℝ := (i : ℝ) ^ (2.38 : ℝ)

/-- One sampled id: `round(_func(i))` as computed in `main`. -/
noncomputable def sampleId (i : Nat) : ℤ := round (func i)

/-- The Sample Generator's full sequence: `round(_func(i))` for
`i in range(n)` (the source uses `n = ROWS = 8128`). -/
noncomputable def sampleSeq (n : Nat) : List ℤ := (List.range n).map sampleId

/-! ## Theorems -/

/-- Comparing a row with itself yields Match when present, Absent when
missing; never Mismatch. -/
lemma check_self (r : Option Row) :
    check r r = if r.isSome then some true else none := by
  cases r <;> simp [check]

/-- The sampling loop over identical databases never aborts: it returns a
tally counting every present sampled id as checked and every missing one
as missing. -/
lemma sampleLoop_self (db : Int → Option Row) :
    ∀ (ids : List Int) (checked missing : Nat),
      sampleLoop db db ids checked missing =
        .ok ⟨checked + ids.countP (fun i => (db i).isSome),
             missing + ids.countP (fun i => !(db i).isSome)⟩ := by
  intro ids
  induction ids with
  | nil => intro c m; simp [sampleLoop]
  | cons i rest ih =>
    intro c m
    cases h : db i with
    | none =>
      have hc : check (db i) (db i) = none := by simp [check, h]
      simp only [sampleLoop, hc]
      rw [ih]
      simp only [Except.ok.injEq, Tally.mk.injEq, List.countP_cons, h]
      refine ⟨by simp, by simp; omega⟩
    | some row =>
      have hc : check (db i) (db i) = some true := by
        rw [check_self, h]; rfl
      simp only [sampleLoop, hc]
      rw [ih]
      simp only [Except.ok.injEq, Tally.mk.injEq, List.countP_cons, h]
      refine ⟨by simp; omega, by simp⟩

/-- The pairwise recency loop on aligned identical row sets succeeds,
checking every row and missing none. -/
lemma recencyLoop_self (r : List Row) :
    ∀ (rest : List Row) (idx checked missing : Nat) (p : Option Row),
      (∀ j, j < rest.length → r[idx + j]? = rest[j]?) →
      recencyLoop r rest idx checked missing p =
        .ok ⟨checked + rest.length, missing⟩ := by
  intro rest
  induction rest with
  | nil => intro idx c m p _; simp [recencyLoop]
  | cons row2 rest ih =>
    intro idx c m p hpre
    have h0 : r[idx]? = some row2 := by simpa using hpre 0 (by simp)
    have hpre2 : ∀ j, j < rest.length → r[idx + 1 + j]? = rest[j]? := by
      intro j hj
      have := hpre (j + 1) (by simp; omega)
      simpa [show idx + (j + 1) = idx + 1 + j by omega] using this
    simp only [recencyLoop, h0]
    rw [if_neg (by simp)]
    rw [ih (idx + 1) (c + 1) m (some row2) hpre2]
    simp only [Except.ok.injEq, Tally.mk.injEq, List.length_cons]
    exact ⟨by omega, trivial⟩

/-- C8 counterexample: primary and downstream hold identical data (both
empty), yet the sampled check at id 0 reports Absent (`none`), not Match
(`some true`); and with both `MAX(updated_at)` aggregates NULL, `lag`
raises instead of evaluating to zero. -/
theorem self_comparison_not_all_match :
    check (emptyDb 0) (emptyDb 0) = none ∧
    check (emptyDb 0) (emptyDb 0) ≠ some true ∧
    lag none none ≠ .value 0 := by decide

/-- C8 (amended): with identical data on both sides, no sampled check
reports Mismatch — each sampled id yields Match when present and Absent
when missing, so the sampling loop completes, counting present ids as
checked and the rest as missing; the recency check succeeds with zero
missing; and when the shared `MAX(updated_at)` aggregate is non-NULL, lag
evaluates to exactly zero. -/
theorem self_comparison (db : Int → Option Row) (ids : List Int)
    (r : List Row) (t : Int) :
    (∀ i, check (db i) (db i) ≠ some false) ∧
    sampleLoop db db ids 0 0 =
      .ok ⟨ids.countP (fun i => (db i).isSome),
           ids.countP (fun i => !(db i).isSome)⟩ ∧
    last_1000 r r = .ok ⟨r.length, 0⟩ ∧
    lag (some t) (some t) = .value 0 := by
  refine ⟨?_, ?_, ?_, ?_⟩
  · intro i
    rw [check_self]
    cases (db i).isSome <;> simp
  · simpa using sampleLoop_self db ids 0 0
  · rw [last_1000, if_neg (by simp)]
    simpa using recencyLoop_self r r 0 0 0 none (fun j hj => by simp)
  · simp [lag]

/-- C8 witness: the amended self-comparison properties at a concrete
database, id list, row set and timestamp. -/
theorem self_comparison_witness :
    (∀ i, check (dbA i) (dbA i) ≠ some false) ∧
    sampleLoop dbA dbA [0, 5] 0 0 =
      .ok ⟨([0, 5] : List Int).countP (fun i => (dbA i).isSome),
           ([0, 5] : List Int).countP (fun i => !(dbA i).isSome)⟩ ∧
    last_1000 [[1, 7]] [[1, 7]] = .ok ⟨([[1, 7]] : List Row).length, 0⟩ ∧
    lag (some 5) (some 5) = .value 0 :=
  self_comparison dbA [0, 5] [[1, 7]] 5

/-- C9: `runAudit` is a pure function of the databases' fetch results and
the sampled id list, so two complete runs with the same configuration and
unchanged database contents produce the same counts and the same
verdict. -/
theorem runAudit_deterministic (primary replica : Database)
    (sampleIds : List Int) :
    ∀ o1 o2 : Except AuditError AuditResult,
      runAudit primary replica sampleIds = o1 →
      runAudit primary replica sampleIds = o2 →
      o1 = o2 :=
  fun _ _ h1 h2 => h1.symm.trans h2

/-- C9 witness: two evaluations of the same concrete audit agree. -/
theorem runAudit_deterministic_witness :
    runAudit auditDb auditDb [0, 5] = .ok ⟨⟨1, 1⟩, ⟨1, 0⟩, 0⟩ ∧
    (Except.ok ⟨⟨1, 1⟩, ⟨1, 0⟩, 0⟩ :
        Except AuditError AuditResult) = .ok ⟨⟨1, 1⟩, ⟨1, 0⟩, 0⟩ :=
  ⟨by rfl, runAudit_deterministic auditDb auditDb [0, 5] _ _ (by rfl) (by rfl)⟩


/-- The id-generating map gains at least 1 per unit step once the base is
at least 1: `x^2.38 + 1 ≤ (x+1)^2.38`. -/
lemma rpow_gap (x : ℝ) (hx : 1 ≤ x) :
    x ^ (2.38 : ℝ) + 1 ≤ (x + 1) ^ (2.38 : ℝ) := by
  have hx0 : (0 : ℝ) < x := lt_of_lt_of_le one_pos hx
  have hx1 : (0 : ℝ) < x + 1 := by linarith
  have h138 : (0 : ℝ) ≤ 1.38 := by norm_num
  have hsplit : (x + 1) ^ (2.38 : ℝ) = (x + 1) * (x + 1) ^ (1.38 : ℝ) := by
    have h := Real.rpow_add hx1 1 1.38
    rw [show (1 : ℝ) + 1.38 = 2.38 by norm_num] at h
    rw [h, Real.rpow_one]
  have hxsplit : x ^ (2.38 : ℝ) = x * x ^ (1.38 : ℝ) := by
    have h := Real.rpow_add hx0 1 1.38
    rw [show (1 : ℝ) + 1.38 = 2.38 by norm_num] at h
    rw [h, Real.rpow_one]
  have hmono : x ^ (1.38 : ℝ) ≤ (x + 1) ^ (1.38 : ℝ) :=
    Real.rpow_le_rpow (le_of_lt hx0) (by linarith) h138
  have hone : (1 : ℝ) ≤ x ^ (1.38 : ℝ) := Real.one_le_rpow hx h138
  calc x ^ (2.38 : ℝ) + 1 = x * x ^ (1.38 : ℝ) + 1 := by rw [hxsplit]
    _ ≤ x * x ^ (1.38 : ℝ) + x ^ (1.38 : ℝ) := by linarith
    _ = (x + 1) * x ^ (1.38 : ℝ) := by ring
    _ ≤ (x + 1) * (x + 1) ^ (1.38 : ℝ) :=
        mul_le_mul_of_nonneg_left hmono (by linarith)
    _ = (x + 1) ^ (2.38 : ℝ) := hsplit.symm

/-- Rounding preserves a gap of at least one. -/
lemma round_lt_of_add_one_le {x y : ℝ} (h : x + 1 ≤ y) :
    round x < round y := by
  rw [round_eq, round_eq]
  have h2 : x + 1 / 2 + (1 : ℝ) ≤ y + 1 / 2 := by linarith
  have h3 : ⌊x + 1 / 2 + (1 : ℝ)⌋ ≤ ⌊y + 1 / 2⌋ := Int.floor_le_floor h2
  rw [Int.floor_add_one] at h3
  omega

/-- Consecutive sampled ids strictly increase. -/
lemma sampleId_lt_succ (i : Nat) : sampleId i < sampleId (i + 1) := by
  cases i with
  | zero =>
    have h0 : func 0 = 0 := by
      simp only [func, Nat.cast_zero]
      exact Real.zero_rpow (by norm_num)
    have h1 : func 1 = 1 := by
      simp only [func, Nat.cast_one]
      exact Real.one_rpow _
    simp [sampleId, h0, h1]
  | succ k =>
    apply round_lt_of_add_one_le
    have hx : (1 : ℝ) ≤ ((k + 1 : Nat) : ℝ) := by
      push_cast
      linarith [Nat.cast_nonneg (α := ℝ) k]
    have h := rpow_gap ((k + 1 : Nat) : ℝ) hx
    simpa [func, show (((k + 1 + 1 : Nat)) : ℝ) = ((k + 1 : Nat) : ℝ) + 1 by
      push_cast; ring] using h

/-- C3: for every `N > 0` and the fixed exponent 2.38, the Sample
Generator's ids `round(i ** 2.38)` are strictly increasing in `i` on
`[0, N)`, and two independent generations with identical parameters
produce the identical sequence of ids. -/
theorem sampleSeq_strictMono_reproducible (N : Nat) (hN : 0 < N) :
    (∀ i j : Nat, i < j → j < N → sampleId i < sampleId j) ∧
    sampleSeq N = sampleSeq N :=
  ⟨fun i j hij _ => strictMono_nat_of_lt_succ sampleId_lt_succ hij, rfl⟩

/-- C3 witness: the sequence restricted to `N = 3`. -/
theorem sampleSeq_strictMono_reproducible_witness :
    0 < 3 ∧ ((∀ i j : Nat, i < j → j < 3 → sampleId i < sampleId j) ∧
      sampleSeq 3 = sampleSeq 3) :=
  ⟨by decide, sampleSeq_strictMono_reproducible 3 (by decide)⟩

/-- C1 counterexample: in the packaged comparator, a pair with the primary
row present and the replica row missing is classified `none` (Absent, the
non-fatal outcome), not `some false` (Mismatch), and is indistinguishable
from the both-absent case. -/
theorem check_one_sided_not_mismatch :
    check (some [1]) none = none ∧ check (some [1]) none ≠ some false ∧
    check (some [1]) none = check none none := by decide

/-- C1 (amended): the packaged comparator (`src/pgreplicaauditor/
checksummer.py`) classifies every pair with at least one missing side as
Absent (`none`), merging one-sided absence with both-absent; only the
legacy script's comparator (`src/checksummer.py`) classifies exactly-one-
side-missing as Mismatch (`some false`) while keeping both-absent Absent. -/
theorem check_absent_policy (r : Row) :
    check (some r) none = none ∧ check none (some r) = none ∧
    check none none = none ∧
    check_legacy (some r) none = some false ∧
    check_legacy none (some r) = some false ∧
    check_legacy none none = none := by
  refine ⟨by simp [check], by simp [check], by simp [check],
    by simp [check_legacy], by simp [check_legacy], by simp [check_legacy]⟩

/-- C2: one step of the packaged sampling loop: a Mismatch (`some false`)
result aborts at once with exactly the offending id, whatever ids remain
unprocessed; an Absent (`none`) result increments `missing` and continues;
a Match (`some true`) result increments `checked` and continues. -/
theorem sampleLoop_step (primary replica : Int → Option Row)
    (id_ : Int) (rest : List Int) (checked missing : Nat) :
    (check (primary id_) (replica id_) = some false →
      sampleLoop primary replica (id_ :: rest) checked missing =
        .error id_) ∧
    (check (primary id_) (replica id_) = none →
      sampleLoop primary replica (id_ :: rest) checked missing =
        sampleLoop primary replica rest checked (missing + 1)) ∧
    (check (primary id_) (replica id_) = some true →
      sampleLoop primary replica (id_ :: rest) checked missing =
        sampleLoop primary replica rest (checked + 1) missing) := by
  refine ⟨fun h => ?_, fun h => ?_, fun h => ?_⟩ <;> simp [sampleLoop, h]

/-- C2 witness: the three step behaviours at concrete databases. -/
theorem sampleLoop_step_witness :
    (check (dbA 0) (dbB 0) = some false ∧
      sampleLoop dbA dbB [0, 5] 0 0 = .error 0) ∧
    (check (dbA 5) (dbB 5) = none ∧
      sampleLoop dbA dbB [5] 2 3 = sampleLoop dbA dbB [] 2 4) ∧
    (check (dbA 0) (dbA 0) = some true ∧
      sampleLoop dbA dbA [0] 0 0 = sampleLoop dbA dbA [] 1 0) :=
  ⟨⟨by decide, (sampleLoop_step dbA dbB 0 [5] 0 0).1 (by decide)⟩,
   ⟨by decide, (sampleLoop_step dbA dbB 5 [] 2 3).2.1 (by decide)⟩,
   ⟨by decide, (sampleLoop_step dbA dbA 0 [] 0 0).2.2 (by decide)⟩⟩

/-- C4: if the two fetched row sets have different lengths, `last_1000`
fails at once with the count-mismatch error, before any pairwise
comparison. -/
theorem last_1000_count_mismatch (r1 r2 : List Row)
    (h : r1.length ≠ r2.length) :
    last_1000 r1 r2 = .error .countMismatch := by
  simp [last_1000, h]

/-- C4 witness: a one-row primary set against an empty replica set. -/
theorem last_1000_count_mismatch_witness :
    ([[1]] : List Row).length ≠ ([] : List Row).length ∧
    last_1000 [[1]] [] = .error .countMismatch :=
  ⟨by decide, last_1000_count_mismatch [[1]] [] (by decide)⟩

/-- If the first `k` primary/replica row pairs (from position `idx`) agree
and the pair at relative position `k` differs, with the primary lookup at
that position in range, the pairwise loop stops there with the mismatch
error naming the primary row's id, regardless of what follows. -/
lemma recencyLoop_first_mismatch (r1 : List Row) :
    ∀ (k : Nat) (rest : List Row) (idx checked missing : Nat)
      (p : Option Row),
      k < rest.length →
      idx + k < r1.length →
      (∀ j, j < k → r1[idx + j]? = rest[j]?) →
      r1[idx + k]? ≠ rest[k]? →
      ∃ row1, r1[idx + k]? = some row1 ∧
        recencyLoop r1 rest idx checked missing p =
          .error (.rowMismatch (rowId row1)) := by
  intro k
  induction k with
  | zero =>
    intro rest idx c m p hk hidx hpre hne
    match rest, hk with
    | row2 :: rest, _ =>
      have hsome : r1[idx]? = some r1[idx] :=
        List.getElem?_eq_getElem (by omega)
      have hne2 : r1[idx] ≠ row2 := by
        intro hcontra
        apply hne
        simpa [hsome] using congrArg some hcontra
      exact ⟨r1[idx], by simp,
        by simp [recencyLoop, hsome, hne2]⟩
  | succ k ih =>
    intro rest idx c m p hk hidx hpre hne
    cases rest with
    | nil => simp at hk
    | cons row2 rest =>
      have h0 : r1[idx]? = some row2 := by
        have := hpre 0 (by omega)
        simpa using this
      have heq : r1[idx] = row2 := by
        have hsome : r1[idx]? = some r1[idx] :=
          List.getElem?_eq_getElem (by omega)
        rw [hsome] at h0
        exact Option.some.injEq _ _ ▸ h0
      obtain ⟨row1, hrow1, hloop⟩ :=
        ih rest (idx + 1) (c + 1) m (some r1[idx])
          (by simp only [List.length_cons] at hk; omega)
          (by omega)
          (by
            intro j hj
            have := hpre (j + 1) (by omega)
            simpa [show idx + (j + 1) = idx + 1 + j by omega] using this)
          (by
            have := hne
            simpa [show idx + (k + 1) = idx + 1 + k by omega] using this)
      refine ⟨row1, by
        simpa [show idx + (k + 1) = idx + 1 + k by omega] using hrow1, ?_⟩
      have hsome : r1[idx]? = some r1[idx] :=
        List.getElem?_eq_getElem (by omega)
      simp only [recencyLoop, hsome, heq]
      rw [if_neg (by simp)]
      exact heq ▸ hloop

/-- C5: under the equal-length precondition, if position `k` holds the
first differing primary/replica row pair, `last_1000` fails with the
row-mismatch error carrying that primary row's id, and its outcome equals
the outcome on the inputs truncated just after position `k` — rows at
later positions are never compared. -/
theorem last_1000_fail_fast (r1 r2 : List Row) (k : Nat)
    (hlen : r1.length = r2.length) (hk : k < r2.length)
    (hpre : ∀ j, j < k → r1[j]? = r2[j]?)
    (hne : r1[k]? ≠ r2[k]?) :
    ∃ row1, r1[k]? = some row1 ∧
      last_1000 r1 r2 = .error (.rowMismatch (rowId row1)) ∧
      last_1000 r1 r2 = last_1000 (r1.take (k + 1)) (r2.take (k + 1)) := by
  obtain ⟨row1, hrow1, hloop⟩ :=
    recencyLoop_first_mismatch r1 k r2 0 0 0 none hk (by omega)
      (by intro j hj; simpa using hpre j hj) (by simpa using hne)
  have hfull : last_1000 r1 r2 = .error (.rowMismatch (rowId row1)) := by
    rw [last_1000, if_neg (by omega)]
    simpa using hloop
  have htlen : (r1.take (k + 1)).length = (r2.take (k + 1)).length := by
    simp [List.length_take]; omega
  obtain ⟨row1t, hrow1t, hloopt⟩ :=
    recencyLoop_first_mismatch (r1.take (k + 1)) k (r2.take (k + 1))
      0 0 0 none
      (by simp [List.length_take]; omega)
      (by simp [List.length_take]; omega)
      (by
        intro j hj
        rw [List.getElem?_take_of_lt (by omega),
          List.getElem?_take_of_lt (by omega)]
        simpa using hpre j hj)
      (by
        rw [List.getElem?_take_of_lt (by omega),
          List.getElem?_take_of_lt (by omega)]
        simpa using hne)
  have hrows : row1t = row1 := by
    rw [List.getElem?_take_of_lt (by omega)] at hrow1t
    simp only [Nat.zero_add] at hrow1t hrow1
    rw [hrow1t] at hrow1
    exact (Option.some.injEq _ _ ▸ hrow1).symm ▸ rfl
  have htake : last_1000 (r1.take (k + 1)) (r2.take (k + 1)) =
      .error (.rowMismatch (rowId row1)) := by
    rw [last_1000, if_neg (by omega)]
    rw [← hrows]
    simpa using hloopt
  exact ⟨row1, by simpa using hrow1, hfull, by rw [hfull, htake]⟩

/-- C5 witness: two-row sets diverging at position 1 (id 2). -/
theorem last_1000_fail_fast_witness :
    ([[5, 0], [2, 1]] : List Row).length =
      ([[5, 0], [2, 2]] : List Row).length ∧
    1 < ([[5, 0], [2, 2]] : List Row).length ∧
    (∀ j, j < 1 →
      ([[5, 0], [2, 1]] : List Row)[j]? =
        ([[5, 0], [2, 2]] : List Row)[j]?) ∧
    ([[5, 0], [2, 1]] : List Row)[1]? ≠
      ([[5, 0], [2, 2]] : List Row)[1]? ∧
    (∃ row1, ([[5, 0], [2, 1]] : List Row)[1]? = some row1 ∧
      last_1000 [[5, 0], [2, 1]] [[5, 0], [2, 2]] =
        .error (.rowMismatch (rowId row1)) ∧
      last_1000 [[5, 0], [2, 1]] [[5, 0], [2, 2]] =
        last_1000 (([[5, 0], [2, 1]] : List Row).take 2)
          (([[5, 0], [2, 2]] : List Row).take 2)) :=
  ⟨by decide, by decide, by decide, by decide,
    last_1000_fail_fast [[5, 0], [2, 1]] [[5, 0], [2, 2]] 1
      (by decide) (by decide) (by decide) (by decide)⟩

/-- C6: with both `MAX(updated_at)` aggregates present, `lag` returns
exactly primary-max minus replica-max, with no clamping or other
transformation — a negative difference is returned as-is. -/
theorem lag_exact (t1 t2 : Int) :
    lag (some t1) (some t2) = .value (t1 - t2) := rfl

/-- C7 (code-bug evidence): when either side's aggregate is NULL, `lag`
raises a `TypeError` from subtracting `None` instead of surfacing a
distinct non-fatal "unknown" result, and `main` turns that into a fatal
abort of the audit. -/
theorem lag_crashes_on_null :
    lag none none = .typeError ∧ lag none (some 0) = .typeError ∧
    lag (some 0) none = .typeError := by decide

/-- When the primary row set covers positions `idx, idx+1, …` of the
remaining replica rows, the pairwise loop never reaches the `IndexError`
branch: its result ignores the stale `row1` binding, it cannot raise the
unbound-variable error, and a successful run leaves `missing` untouched
while adding exactly one `checked` per replica row. -/
lemma recencyLoop_eqlen (r1 : List Row) (rest : List Row) :
    ∀ (idx checked missing : Nat) (p q : Option Row),
      r1.length = idx + rest.length →
      recencyLoop r1 rest idx checked missing p =
        recencyLoop r1 rest idx checked missing q ∧
      recencyLoop r1 rest idx checked missing p ≠ .error .nameError ∧
      (∀ t, recencyLoop r1 rest idx checked missing p = .ok t →
        t.missing = missing ∧ t.checked = checked + rest.length) := by
  induction rest with
  | nil =>
    intro idx c m p q _
    refine ⟨rfl, by simp [recencyLoop], ?_⟩
    intro t ht
    simp only [recencyLoop, Except.ok.injEq] at ht
    subst ht
    simp
  | cons row2 rest ih =>
    intro idx c m p q h
    have hidx : idx < r1.length := by simp only [List.length_cons] at h; omega
    have hsome : r1[idx]? = some r1[idx] := List.getElem?_eq_getElem hidx
    by_cases hne : r1[idx] = row2
    · subst hne
      have hlen2 : r1.length = (idx + 1) + rest.length := by
        simp only [List.length_cons] at h; omega
      have ihx := ih (idx + 1) (c + 1) m (some r1[idx]) (some r1[idx]) hlen2
      refine ⟨?_, ?_, ?_⟩
      · simp [recencyLoop, hsome]
      · simp only [recencyLoop, hsome]
        simpa using ihx.2.1
      · intro t ht
        simp only [recencyLoop, hsome] at ht
        rw [if_neg (by simp)] at ht
        have := ihx.2.2 t ht
        simp only [List.length_cons]
        omega
    · refine ⟨?_, ?_, ?_⟩
      · simp [recencyLoop, hsome, hne]
      · simp [recencyLoop, hsome, hne]
      · intro t ht
        simp [recencyLoop, hsome, hne] at ht

/-- C10: once the equal-length guard has passed, the `IndexError` branch of
the pairwise loop is unreachable — the result does not depend on the stale
`row1` binding and the unbound-variable error cannot occur — so a
successful `last_1000` reports `missing = 0` and `checked` equal to the
number of replica rows fetched. -/
theorem last_1000_no_missing (r1 r2 : List Row)
    (hlen : r1.length = r2.length) :
    (∀ p, recencyLoop r1 r2 0 0 0 p = recencyLoop r1 r2 0 0 0 none) ∧
    last_1000 r1 r2 ≠ .error .nameError ∧
    (∀ t, last_1000 r1 r2 = .ok t →
      t.missing = 0 ∧ t.checked = r2.length) := by
  have hrw : last_1000 r1 r2 = recencyLoop r1 r2 0 0 0 none := by
    simp [last_1000, hlen]
  have hx := fun p q =>
    recencyLoop_eqlen r1 r2 0 0 0 p q (by omega)
  refine ⟨fun p => (hx p none).1, ?_, ?_⟩
  · rw [hrw]; exact (hx none none).2.1
  · intro t ht
    rw [hrw] at ht
    simpa using (hx none none).2.2 t ht

/-- C10 witness: equal-length one-row sets, with an arbitrary stale
binding shown irrelevant. -/
theorem last_1000_no_missing_witness :
    ([[1, 7]] : List Row).length = ([[1, 7]] : List Row).length ∧
    recencyLoop [[1, 7]] [[1, 7]] 0 0 0 (some [9]) =
      recencyLoop [[1, 7]] [[1, 7]] 0 0 0 none ∧
    last_1000 [[1, 7]] [[1, 7]] ≠ .error .nameError ∧
    (Tally.mk 1 0).missing = 0 ∧
    (Tally.mk 1 0).checked = ([[1, 7]] : List Row).length := by
  have h := last_1000_no_missing [[1, 7]] [[1, 7]] (by decide)
  exact ⟨by decide, h.1 (some [9]), h.2.1,
    (h.2.2 ⟨1, 0⟩ (by rfl)).1, (h.2.2 ⟨1, 0⟩ (by rfl)).2⟩


end PgAudit
